import Mathlib

/-!
Verification of the probability-calculator library (discrete and continuous
distribution modules) against its natural-language specification.

The embedding models Python floats by exact rationals (for the algebraically
closed-form discrete binomial code) and by real numbers (where the code calls
the transcendental primitives `math.exp`, `math.log`, `math.erf`,
`math.sqrt`); machine integers are `ℤ`.  Fallible functions return
`Except Err _`: `Err.domainError` models a raised Python `ValueError`
(the spec's DomainError), `Err.importError` models a raised `ImportError`.
-/

namespace ProbCalc

/-- Exceptions observable from the library: `domainError` models Python's
`ValueError` (the spec's DomainError); `importError` models `ImportError`
raised when the optional scipy backend is missing. -/
inductive Err where
  | domainError : Err
  | importError : Err
deriving DecidableEq

/-- Python `range(m)` for an integer bound `m`, as a list of integers
`[0, 1, ..., m-1]` (empty when `m ≤ 0`). -/
def intRange (m : ℤ) : List ℤ :=
  (List.range m.toNat).map (fun i : ℕ => (i : ℤ))

/-- Python's `sum(f(i) for i in l)` where each `f i` may raise: the first
raising term propagates its exception, otherwise the values are summed. -/
def sumE {α : Type} [AddCommMonoid α] (f : ℤ → Except Err α) : List ℤ → Except Err α
  | [] => .ok 0
  | i :: l => do
    let x ← f i
    let s ← sumE f l
    .ok (x + s)

/-- `discrete.factorial`: `math.factorial n`, raising for `n < 0`. -/
def factorial (n : ℤ) : Except Err ℤ :=
  if n < 0 then .error .domainError
  else .ok (Nat.factorial n.toNat)

/-- `discrete.combinations`: `math.comb n k` guarded by the two explicit
validations (`n < 0 ∨ k < 0`, then `k > n`). -/
def combinations (n k : ℤ) : Except Err ℤ :=
  if n < 0 ∨ k < 0 then .error .domainError
  else if k > n then .error .domainError
  else .ok (Nat.choose n.toNat k.toNat)

/-- `discrete.binomial` (the binomial pmf), with the source's guard order:
`n < 1` raises, `k < 0` raises, `k > n` returns 0.0, `p ∉ [0,1]` raises,
then the `p = 0` and `p = 1` special cases, then
`C(n,k) · p^k · (1-p)^(n-k)`. -/
def binomial (n k : ℤ) (p : ℚ) : Except Err ℚ :=
  if n < 1 then .error .domainError
  else if k < 0 then .error .domainError
  else if k > n then .ok 0
  else if ¬(0 ≤ p ∧ p ≤ 1) then .error .domainError
  else if p = 0 then .ok (if k = 0 then 1 else 0)
  else if p = 1 then .ok (if k = n then 1 else 0)
  else do
    let coef ← combinations n k
    .ok ((coef : ℚ) * p ^ k.toNat * (1 - p) ^ (n - k).toNat)

/-- `discrete.binomial_cumulative`: returns 0.0 when `k < 0`, clamps `k` to
`n` when `k ≥ n`, then sums `binomial n i p` for `i` in `range(k+1)`. -/
def binomial_cumulative (n k : ℤ) (p : ℚ) : Except Err ℚ :=
  if k < 0 then .ok 0
  else
    let kc := if k ≥ n then n else k
    sumE (fun i => binomial n i p) (intRange (kc + 1))

/-- `discrete.poisson` (the Poisson pmf): validates `λ > 0` then `k ≥ 0`,
short-circuits to 0.0 when `k > 1000 ∧ λ < 10`, else returns
`λ^k · e^(-λ) / k!`. -/
noncomputable def poisson (lam : ℝ) (k : ℤ) : Except Err ℝ :=
  if lam ≤ 0 then .error .domainError
  else if k < 0 then .error .domainError
  else if k > 1000 ∧ lam < 10 then .ok 0
  else do
    let d ← factorial k
    .ok (lam ^ k.toNat * Real.exp (-lam) / (d : ℝ))

/-- `discrete.poisson_cumulative`: returns 0.0 when `k < 0`, else sums
`poisson lam i` for `i` in `range(k+1)`. -/
noncomputable def poisson_cumulative (lam : ℝ) (k : ℤ) : Except Err ℝ :=
  if k < 0 then .ok 0
  else sumE (fun i => poisson lam i) (intRange (k + 1))

/-- `discrete.binomial_mean`: `n * p`, no validation. -/
def binomial_mean (n : ℤ) (p : ℝ) : ℝ := n * p

/-- `discrete.binomial_variance`: `n * p * (1 - p)`, no validation. -/
def binomial_variance (n : ℤ) (p : ℝ) : ℝ := n * p * (1 - p)

/-- Python's `math.sqrt`: raises `ValueError` ("math domain error") on a
negative argument, else the nonnegative square root. -/
noncomputable def mathSqrt (x : ℝ) : Except Err ℝ :=
  if x < 0 then .error .domainError
  else .ok (Real.sqrt x)

/-- `discrete.binomial_std`: `math.sqrt (binomial_variance n p)`,
no parameter validation of its own. -/
noncomputable def binomial_std (n : ℤ) (p : ℝ) : Except Err ℝ :=
  mathSqrt (binomial_variance n p)

/-- The mathematical error function, modelling Python's `math.erf`. -/
noncomputable def erf (x : ℝ) : ℝ :=
  (2 / Real.sqrt Real.pi) * ∫ t in (0:ℝ)..x, Real.exp (-(t ^ 2))

/-- `continuous._standard_normal_cdf`: `Φ(z) = 0.5 · (1 + erf (z / √2))`. -/
noncomputable def standard_normal_cdf (z : ℝ) : ℝ :=
  0.5 * (1.0 + erf (z / Real.sqrt 2.0))

/-- `continuous.normal_cdf`: validates `σ > 0`, standardizes
`z = (x - μ)/σ`, returns `Φ(z)`. -/
noncomputable def normal_cdf (x mu sigma : ℝ) : Except Err ℝ :=
  if sigma ≤ 0 then .error .domainError
  else .ok (standard_normal_cdf ((x - mu) / sigma))

/-- `continuous.normal_ppf`: validates `0 < p < 1` then `σ > 0`; raises
`ImportError` when the optional scipy backend is unavailable, else delegates
to scipy's `norm.ppf` (modelled by the abstract parameter `normPpf`, since
that routine lives outside this repository). -/
noncomputable def normal_ppf (scipyAvailable : Bool) (normPpf : ℝ → ℝ → ℝ → ℝ)
    (p mu sigma : ℝ) : Except Err ℝ :=
  if ¬(0 < p ∧ p < 1) then .error .domainError
  else if sigma ≤ 0 then .error .domainError
  else if ¬scipyAvailable then .error .importError
  else .ok (normPpf p mu sigma)

/-- `continuous.exponential_pdf`: validates `λ > 0`; 0.0 for `x < 0`, else
`λ · e^(-λx)`. -/
noncomputable def exponential_pdf (x lam : ℝ) : Except Err ℝ :=
  if lam ≤ 0 then .error .domainError
  else if x < 0 then .ok 0
  else .ok (lam * Real.exp (-lam * x))

/-- `continuous.exponential_cdf`: validates `λ > 0`; 0.0 for `x < 0`, else
`1 - e^(-λx)`. -/
noncomputable def exponential_cdf (x lam : ℝ) : Except Err ℝ :=
  if lam ≤ 0 then .error .domainError
  else if x < 0 then .ok 0
  else .ok (1 - Real.exp (-lam * x))

/-- `continuous.exponential_ppf`: validates `0 < p < 1` then `λ > 0`;
returns `-ln(1 - p) / λ`. -/
noncomputable def exponential_ppf (p lam : ℝ) : Except Err ℝ :=
  if ¬(0 < p ∧ p < 1) then .error .domainError
  else if lam ≤ 0 then .error .domainError
  else .ok (-Real.log (1 - p) / lam)

/-! ### Helper lemmas -/

theorem intRange_nil {m : ℤ} (h : m ≤ 0) : intRange m = [] := by
  unfold intRange
  have : m.toNat = 0 := by omega
  rw [this]
  rfl

theorem intRange_eq_cons {m : ℤ} (h : 0 < m) :
    ∃ l, intRange m = (0 : ℤ) :: l := by
  unfold intRange
  have hm : m.toNat = (m.toNat - 1) + 1 := by omega
  rw [hm, List.range_succ_eq_map]
  exact ⟨_, rfl⟩

theorem sumE_cons {α : Type} [AddCommMonoid α] (f : ℤ → Except Err α) (i : ℤ) (l : List ℤ) :
    sumE f (i :: l) =
      (f i).bind (fun x => (sumE f l).bind (fun s => .ok (x + s))) := rfl

theorem sumE_ok {α : Type} [AddCommMonoid α] (f : ℤ → Except Err α) (g : ℤ → α) :
    ∀ l : List ℤ, (∀ i ∈ l, f i = .ok (g i)) → sumE f l = .ok (l.map g).sum := by
  intro l
  induction l with
  | nil => intro _; rfl
  | cons i l ih =>
    intro h
    rw [sumE_cons, h i (List.mem_cons_self i l),
      ih (fun j hj => h j (List.mem_cons_of_mem _ hj))]
    rfl

theorem sumE_head_error {α : Type} [AddCommMonoid α] {f : ℤ → Except Err α} {e : Err}
    {m : ℤ} (hm : 0 < m) (h0 : f 0 = .error e) :
    sumE f (intRange m) = .error e := by
  obtain ⟨l, hl⟩ := intRange_eq_cons hm
  rw [hl, sumE_cons, h0]
  rfl

theorem combinations_ok {n k : ℤ} (hn : 0 ≤ n) (hk : 0 ≤ k) (hkn : k ≤ n) :
    combinations n k = .ok (Nat.choose n.toNat k.toNat) := by
  unfold combinations
  rw [if_neg (by omega), if_neg (by omega)]

/-- Evaluation of the binomial pmf on its in-domain inputs: all three branches
(`p = 0`, `p = 1`, general) agree with the closed formula
`C(n,k) · p^k · (1-p)^(n-k)` over exact rationals. -/
theorem binomial_eval {n k : ℤ} {p : ℚ} (hn : 1 ≤ n) (hk : 0 ≤ k) (hkn : k ≤ n)
    (hp0 : 0 ≤ p) (hp1 : p ≤ 1) :
    binomial n k p =
      .ok ((Nat.choose n.toNat k.toNat : ℚ) * p ^ k.toNat * (1 - p) ^ (n - k).toNat) := by
  unfold binomial
  rw [if_neg (by omega), if_neg (by omega), if_neg (by omega),
    if_neg (by simp [hp0, hp1])]
  by_cases h0 : p = 0
  · subst h0
    rw [if_pos rfl]
    by_cases hk0 : k = 0
    · subst hk0
      simp
    · have ht : k.toNat ≠ 0 := by omega
      simp [hk0, zero_pow ht]
  · rw [if_neg h0]
    by_cases h1 : p = 1
    · subst h1
      rw [if_pos rfl]
      by_cases hkn1 : k = n
      · subst hkn1
        simp [Nat.choose_self]
      · have ht : (n - k).toNat ≠ 0 := by omega
        simp [hkn1, zero_pow ht]
    · rw [if_neg h1, combinations_ok (by omega) hk hkn]
      rfl

/-! ### Claim theorems -/

/-- Claim C7: boundary behaviour of the binomial pmf at `p = 0` and `p = 1`:
for every `n ≥ 1` and `0 ≤ k ≤ n`, `binomial n k 0` is exactly 1 iff `k = 0`
(else exactly 0), and `binomial n k 1` is exactly 1 iff `k = n` (else 0). -/
theorem binomial_pmf_boundary (n k : ℤ) (hn : 1 ≤ n) (hk : 0 ≤ k) (hkn : k ≤ n) :
    binomial n k 0 = .ok (if k = 0 then 1 else 0) ∧
    binomial n k 1 = .ok (if k = n then 1 else 0) := by
  constructor
  · unfold binomial
    rw [if_neg (by omega), if_neg (by omega), if_neg (by omega),
      if_neg (by norm_num), if_pos rfl]
  · unfold binomial
    rw [if_neg (by omega), if_neg (by omega), if_neg (by omega),
      if_neg (by norm_num), if_neg (by norm_num), if_pos rfl]

/-- Witness for C7 at `n = 3`, `k = 0`. -/
theorem binomial_pmf_boundary_witness :
    binomial 3 0 0 = .ok 1 ∧ binomial 3 0 1 = .ok 0 := by
  have h := binomial_pmf_boundary 3 0 (by decide) (by decide) (by decide)
  simpa using h

/-- Counterexample to Claim C2: with `n = 5`, `k = 6 > n` and `p = 2`
outside `[0,1]`, `binomial` returns `0.0` without raising any error, because
the `k > n` early return precedes the validation of `p`.  This refutes the
claim that `p` outside `[0,1]` raises a DomainError for every `n ≥ 1`,
`k ≥ 0`, including `k > n`. -/
theorem binomial_pmf_p_unchecked_when_k_gt_n :
    binomial 5 6 2 = .ok 0 := rfl

/-- Claim C2 (amended): `binomial` raises a DomainError exactly when `n < 1`,
or `n ≥ 1` and `k < 0`, or `n ≥ 1`, `0 ≤ k ≤ n` and `p` outside `[0,1]`;
for every `n ≥ 1` and `k > n` it returns `0.0` without error for every `p`,
including `p` outside `[0,1]` (the `k > n` early return precedes the `p`
validation). -/
theorem binomial_pmf_error_iff :
    (∀ (n k : ℤ) (p : ℚ), binomial n k p = .error .domainError ↔
      n < 1 ∨ (1 ≤ n ∧ k < 0) ∨ (1 ≤ n ∧ 0 ≤ k ∧ k ≤ n ∧ (p < 0 ∨ 1 < p))) ∧
    (∀ (n k : ℤ) (p : ℚ), 1 ≤ n → n < k → binomial n k p = .ok 0) := by
  constructor
  · intro n k p
    constructor
    · intro h
      by_cases hn : n < 1
      · exact Or.inl hn
      · by_cases hk : k < 0
        · exact Or.inr (Or.inl ⟨by omega, hk⟩)
        · by_cases hkn : k > n
          · unfold binomial at h
            rw [if_neg hn, if_neg hk, if_pos hkn] at h
            exact Except.noConfusion h
          · by_cases hp : 0 ≤ p ∧ p ≤ 1
            · rw [binomial_eval (by omega) (by omega) (by omega) hp.1 hp.2] at h
              exact Except.noConfusion h
            · refine Or.inr (Or.inr ⟨by omega, by omega, by omega, ?_⟩)
              rcases not_and_or.mp hp with h1 | h2
              · exact Or.inl (lt_of_not_le h1)
              · exact Or.inr (lt_of_not_le h2)
    · intro h
      rcases h with h | ⟨hn, hk⟩ | ⟨hn, hk, hkn, hp⟩
      · unfold binomial
        rw [if_pos h]
      · unfold binomial
        rw [if_neg (by omega), if_pos hk]
      · unfold binomial
        rw [if_neg (by omega), if_neg (by omega), if_neg (by omega),
          if_pos (by intro hc; rcases hp with hp | hp <;> linarith [hc.1, hc.2])]
  · intro n k p hn hk
    unfold binomial
    rw [if_neg (by omega), if_neg (by omega), if_pos (by omega)]

/-- Witness for C2 (amended): `binomial 5 (-1) (1/2)` raises a DomainError
and `binomial 5 6 (1/2)` returns `0.0`. -/
theorem binomial_pmf_error_iff_witness :
    binomial 5 (-1) (1/2) = .error .domainError ∧ binomial 5 6 (1/2) = .ok 0 :=
  ⟨(binomial_pmf_error_iff.1 5 (-1) (1/2)).2 (by omega),
   binomial_pmf_error_iff.2 5 6 (1/2) (by omega) (by omega)⟩

/-- Counterexample to Claim C3: `binomial_cumulative 0 (-1) (1/2)` has `n < 1`
yet returns `0.0` without raising (the `k < 0` early return precedes all
validation); `binomial_cumulative (-1) 0 (1/2)` has `n < 1` and `k ≥ 0` yet
also returns `0.0` (the clamped summation range is empty); and
`poisson_cumulative (-1) (-1)` has `λ ≤ 0` yet returns `0.0`. -/
theorem cumulative_skips_validation :
    binomial_cumulative 0 (-1) (1/2) = .ok 0 ∧
    binomial_cumulative (-1) 0 (1/2) = .ok 0 ∧
    poisson_cumulative (-1) (-1) = .ok 0 := by
  refine ⟨rfl, ?_, ?_⟩
  · unfold binomial_cumulative
    rw [if_neg (by omega)]
    simp only [ge_iff_le, if_pos (show (-1 : ℤ) ≤ 0 by omega)]
    rw [intRange_nil (by omega)]
    rfl
  · unfold poisson_cumulative
    rw [if_pos (by omega)]

/-- Claim C3 (amended): the cumulative functions validate their parameters
only when the summation actually runs.  `poisson_cumulative` raises a
DomainError for every `λ ≤ 0` when `k ≥ 0`, and returns `0.0` for every
`k < 0` without checking `λ`.  `binomial_cumulative` raises a DomainError
when `k ≥ 0` and `n = 0`, and when `k ≥ 0`, `n ≥ 1` and `p` outside `[0,1]`;
it returns `0.0` for every `k < 0` (regardless of `n`, `p`) and for every
`n ≤ -1` with `k ≥ 0` (empty clamped summation range). -/
theorem cumulative_validation :
    (∀ (lam : ℝ) (k : ℤ), lam ≤ 0 → 0 ≤ k →
      poisson_cumulative lam k = .error .domainError) ∧
    (∀ (k : ℤ) (p : ℚ), 0 ≤ k → binomial_cumulative 0 k p = .error .domainError) ∧
    (∀ (n k : ℤ) (p : ℚ), 1 ≤ n → 0 ≤ k → (p < 0 ∨ 1 < p) →
      binomial_cumulative n k p = .error .domainError) ∧
    (∀ (n k : ℤ) (p : ℚ), k < 0 → binomial_cumulative n k p = .ok 0) ∧
    (∀ (lam : ℝ) (k : ℤ), k < 0 → poisson_cumulative lam k = .ok 0) ∧
    (∀ (n k : ℤ) (p : ℚ), n ≤ -1 → 0 ≤ k → binomial_cumulative n k p = .ok 0) := by
  refine ⟨?_, ?_, ?_, ?_, ?_, ?_⟩
  · intro lam k hlam hk
    unfold poisson_cumulative
    rw [if_neg (by omega)]
    refine sumE_head_error (by omega) ?_
    unfold poisson
    rw [if_pos hlam]
  · intro k p hk
    unfold binomial_cumulative
    rw [if_neg (by omega)]
    simp only [ge_iff_le, if_pos hk]
    refine sumE_head_error (by omega) ?_
    unfold binomial
    rw [if_pos (by omega)]
  · intro n k p hn hk hp
    unfold binomial_cumulative
    rw [if_neg (by omega)]
    have hpos : 0 < (if k ≥ n then n else k) + 1 := by
      split <;> omega
    refine sumE_head_error hpos ?_
    unfold binomial
    rw [if_neg (by omega), if_neg (by omega), if_neg (by omega),
      if_pos (by intro hc; rcases hp with hp | hp <;> linarith [hc.1, hc.2])]
  · intro n k p hk
    unfold binomial_cumulative
    rw [if_pos hk]
  · intro lam k hk
    unfold poisson_cumulative
    rw [if_pos hk]
  · intro n k p hn hk
    unfold binomial_cumulative
    rw [if_neg (by omega)]
    simp only [ge_iff_le, if_pos (show n ≤ k by omega)]
    rw [intRange_nil (by omega)]
    rfl

/-- Witness for C3 (amended): `poisson_cumulative 0 0` and
`binomial_cumulative 0 0 (1/2)` and `binomial_cumulative 2 0 2` raise
DomainErrors; `poisson_cumulative 1 (-1)` returns `0.0`. -/
theorem cumulative_validation_witness :
    poisson_cumulative 0 0 = .error .domainError ∧
    binomial_cumulative 0 0 (1/2) = .error .domainError ∧
    binomial_cumulative 2 0 2 = .error .domainError ∧
    poisson_cumulative 1 (-1) = .ok 0 :=
  ⟨cumulative_validation.1 0 0 (by norm_num) (by omega),
   cumulative_validation.2.1 0 (1/2) (by omega),
   cumulative_validation.2.2.1 2 0 2 (by omega) (by omega) (by norm_num),
   cumulative_validation.2.2.2.2.1 1 (-1) (by omega)⟩

/-- Claim C6: the Poisson pmf short-circuits: for every `k > 1000` and
`0 < λ < 10` it returns exactly `0.0`; for all other valid inputs
(`λ > 0`, `k ≥ 0`) it returns `λ^k · e^(-λ) / k!`. -/
theorem poisson_shortcircuit :
    (∀ (lam : ℝ) (k : ℤ), 0 < lam → lam < 10 → 1000 < k →
      poisson lam k = .ok 0) ∧
    (∀ (lam : ℝ) (k : ℤ), 0 < lam → 0 ≤ k → ¬(1000 < k ∧ lam < 10) →
      poisson lam k = .ok (lam ^ k.toNat * Real.exp (-lam) /
        (Nat.factorial k.toNat : ℝ))) := by
  constructor
  · intro lam k h0 h10 hk
    unfold poisson
    rw [if_neg (not_le.mpr h0), if_neg (by omega), if_pos ⟨hk, h10⟩]
  · intro lam k h0 hk hns
    unfold poisson
    rw [if_neg (not_le.mpr h0), if_neg (by omega), if_neg hns]
    unfold factorial
    rw [if_neg (by omega)]
    show Except.ok (lam ^ k.toNat * Real.exp (-lam) / ((Nat.factorial k.toNat : ℤ) : ℝ)) =
      Except.ok (lam ^ k.toNat * Real.exp (-lam) / (Nat.factorial k.toNat : ℝ))
    norm_num

/-- Witness for C6: at `λ = 1`, `k = 1001` the short-circuit returns `0.0`,
and at `λ = 1`, `k = 0` the general formula path gives `e^(-1)`. -/
theorem poisson_shortcircuit_witness :
    poisson 1 1001 = .ok 0 ∧
    poisson 1 0 = .ok (1 ^ (0 : ℤ).toNat * Real.exp (-1) /
      (Nat.factorial (0 : ℤ).toNat : ℝ)) :=
  ⟨poisson_shortcircuit.1 1 1001 (by norm_num) (by norm_num) (by omega),
   poisson_shortcircuit.2 1 0 (by norm_num) (by omega) (by omega)⟩

/-- Claim C5: round-trip identity for the exponential distribution: for every
`p` in `(0,1)` and `λ > 0`, `exponential_cdf (exponential_ppf p λ) λ = p`
exactly as a real-number identity: the ppf succeeds with
`x = -ln(1-p)/λ` and `1 - e^(-λx) = p`. -/
theorem exponential_roundtrip (p lam : ℝ) (hp0 : 0 < p) (hp1 : p < 1)
    (hl : 0 < lam) :
    ∃ x, exponential_ppf p lam = .ok x ∧ exponential_cdf x lam = .ok p := by
  refine ⟨-Real.log (1 - p) / lam, ?_, ?_⟩
  · unfold exponential_ppf
    rw [if_neg (by simp [hp0, hp1]), if_neg (not_le.mpr hl)]
  · unfold exponential_cdf
    have hlog : Real.log (1 - p) ≤ 0 :=
      Real.log_nonpos (by linarith) (by linarith)
    have hx : ¬(-Real.log (1 - p) / lam < 0) := by
      refine not_lt.mpr (div_nonneg (by linarith) (le_of_lt hl))
    rw [if_neg (not_le.mpr hl), if_neg hx]
    have harg : -lam * (-Real.log (1 - p) / lam) = Real.log (1 - p) := by
      field_simp
    rw [harg, Real.exp_log (by linarith)]
    norm_num

/-- Witness for C5 at `p = 1/2`, `λ = 1`. -/
theorem exponential_roundtrip_witness :
    ∃ x, exponential_ppf (1/2) 1 = .ok x ∧ exponential_cdf x 1 = .ok (1/2) :=
  exponential_roundtrip (1/2) 1 (by norm_num) (by norm_num) (by norm_num)

/-- Claim C8: for every `λ > 0` the exponential pdf and cdf are `0.0` for
`x < 0`, the cdf is exactly `0.0` at `x = 0`, for `x ≥ 0` the pdf is
`λ·e^(-λx)` and the cdf is `1 - e^(-λx)`, and both raise a DomainError for
every `λ ≤ 0`. -/
theorem exponential_pdf_cdf_spec :
    (∀ x lam : ℝ, 0 < lam → x < 0 →
      exponential_pdf x lam = .ok 0 ∧ exponential_cdf x lam = .ok 0) ∧
    (∀ lam : ℝ, 0 < lam → exponential_cdf 0 lam = .ok 0) ∧
    (∀ x lam : ℝ, 0 < lam → 0 ≤ x →
      exponential_pdf x lam = .ok (lam * Real.exp (-lam * x)) ∧
      exponential_cdf x lam = .ok (1 - Real.exp (-lam * x))) ∧
    (∀ x lam : ℝ, lam ≤ 0 →
      exponential_pdf x lam = .error .domainError ∧
      exponential_cdf x lam = .error .domainError) := by
  refine ⟨?_, ?_, ?_, ?_⟩
  · intro x lam hl hx
    unfold exponential_pdf exponential_cdf
    rw [if_neg (not_le.mpr hl), if_pos hx]
    exact ⟨rfl, by rw [if_neg (not_le.mpr hl), if_pos hx]⟩
  · intro lam hl
    unfold exponential_cdf
    rw [if_neg (not_le.mpr hl), if_neg (by norm_num)]
    norm_num [Real.exp_zero]
  · intro x lam hl hx
    unfold exponential_pdf exponential_cdf
    rw [if_neg (not_le.mpr hl), if_neg (not_lt.mpr hx)]
    exact ⟨rfl, by rw [if_neg (not_le.mpr hl), if_neg (not_lt.mpr hx)]⟩
  · intro x lam hl
    unfold exponential_pdf exponential_cdf
    rw [if_pos hl]
    exact ⟨rfl, by rw [if_pos hl]⟩

/-- Witness for C8 at `λ = 2`, `x = -1`, `x = 0`, and `λ = 0`. -/
theorem exponential_pdf_cdf_spec_witness :
    exponential_pdf (-1) 2 = .ok 0 ∧
    exponential_cdf 0 2 = .ok 0 ∧
    exponential_pdf 0 2 = .ok (2 * Real.exp (-2 * 0)) ∧
    exponential_cdf (-3) 0 = .error .domainError :=
  ⟨(exponential_pdf_cdf_spec.1 (-1) 2 (by norm_num) (by norm_num)).1,
   exponential_pdf_cdf_spec.2.1 2 (by norm_num),
   (exponential_pdf_cdf_spec.2.2.1 0 2 (by norm_num) (by norm_num)).1,
   (exponential_pdf_cdf_spec.2.2.2 (-3) 0 (by norm_num)).2⟩

/-- Claim C9: for every `μ` and `σ > 0`, `normal_cdf μ μ σ = 0.5` exactly:
the cdf standardizes `z = (x-μ)/σ = 0` and returns `0.5·(1 + erf 0)`, and
`erf 0 = 0`. -/
theorem normal_cdf_at_mean (mu sigma : ℝ) (h : 0 < sigma) :
    normal_cdf mu mu sigma = .ok (1/2) := by
  unfold normal_cdf standard_normal_cdf erf
  rw [if_neg (not_le.mpr h)]
  norm_num [intervalIntegral.integral_same]

/-- Witness for C9 at `μ = 0`, `σ = 1`. -/
theorem normal_cdf_at_mean_witness : normal_cdf 0 0 1 = .ok (1/2) :=
  normal_cdf_at_mean 0 1 (by norm_num)

/-- Counterexample to Claim C1: when the optional scipy backend is absent,
`normal_ppf` raises an ImportError even on fully valid parameters
(`p = 1/2`, `μ = 0`, `σ = 1`): the inverse-normal computation is not
self-contained and does depend on the optional third-party library. -/
theorem normal_ppf_import_failure :
    normal_ppf false (fun _ _ _ => 0) (1/2) 0 1 = .error .importError := by
  unfold normal_ppf
  rw [if_neg (by norm_num), if_neg (by norm_num), if_pos (by simp)]

/-- Claim C1 (amended): for every `p` in `(0,1)`, every `μ` and every
`σ > 0`, `normal_ppf` delegates to the optional scipy backend: when scipy is
available it returns scipy's `norm.ppf p μ σ`, and when scipy is unavailable
it raises an ImportError (an availability error) instead of computing the
inverse cdf itself. -/
theorem normal_ppf_availability (f : ℝ → ℝ → ℝ → ℝ) (p mu sigma : ℝ)
    (hp0 : 0 < p) (hp1 : p < 1) (hs : 0 < sigma) :
    normal_ppf true f p mu sigma = .ok (f p mu sigma) ∧
    normal_ppf false f p mu sigma = .error .importError := by
  constructor
  · unfold normal_ppf
    rw [if_neg (by simp [hp0, hp1]), if_neg (not_le.mpr hs), if_neg (by simp)]
  · unfold normal_ppf
    rw [if_neg (by simp [hp0, hp1]), if_neg (not_le.mpr hs), if_pos (by simp)]

/-- Witness for C1 (amended) at `p = 1/2`, `μ = 0`, `σ = 1` with the scipy
routine modelled by the zero function. -/
theorem normal_ppf_availability_witness :
    normal_ppf true (fun _ _ _ => 0) (1/2) 0 1 = .ok 0 ∧
    normal_ppf false (fun _ _ _ => 0) (1/2) 0 1 = .error .importError :=
  normal_ppf_availability (fun _ _ _ => 0) (1/2) 0 1
    (by norm_num) (by norm_num) (by norm_num)

/-- Claim C10: `binomial_std` performs no parameter validation of its own:
for every `n ≥ 1` and `p ∈ [0,1]` it returns without error, but at
`n = 1`, `p = 2` (so `n·p·(1-p) = -2 < 0`) the square root of a negative
number raises an error, whereas `binomial_variance` returns the negative
value `-2` and `binomial_mean` returns `2` for the same inputs without
raising (both are total). -/
theorem binomial_std_validation :
    (∀ (n : ℤ) (p : ℝ), 1 ≤ n → 0 ≤ p → p ≤ 1 →
      ∃ y, binomial_std n p = .ok y) ∧
    binomial_std 1 2 = .error .domainError ∧
    binomial_variance 1 2 = -2 ∧
    binomial_mean 1 2 = 2 := by
  refine ⟨?_, ?_, ?_, ?_⟩
  · intro n p hn hp0 hp1
    have hn' : (0 : ℝ) ≤ (n : ℝ) := by exact_mod_cast (by omega : (0 : ℤ) ≤ n)
    have hvar : 0 ≤ binomial_variance n p := by
      unfold binomial_variance
      exact mul_nonneg (mul_nonneg hn' hp0) (by linarith)
    refine ⟨Real.sqrt (binomial_variance n p), ?_⟩
    unfold binomial_std mathSqrt
    rw [if_neg (not_lt.mpr hvar)]
  · unfold binomial_std mathSqrt binomial_variance
    rw [if_pos (by norm_num)]
  · unfold binomial_variance
    norm_num
  · unfold binomial_mean
    norm_num

/-- Witness for C10 at `n = 4`, `p = 1/2`. -/
theorem binomial_std_validation_witness :
    ∃ y, binomial_std 4 (1/2) = .ok y :=
  binomial_std_validation.1 4 (1/2) (by omega) (by norm_num) (by norm_num)

theorem list_range_map_sum {α : Type} [AddCommMonoid α] (M : ℕ) (h : ℕ → α) :
    ((List.range M).map h).sum = ∑ j in Finset.range M, h j := by
  induction M with
  | zero => rfl
  | succ M ih =>
    rw [List.range_succ, List.map_append, List.sum_append, Finset.sum_range_succ, ih]
    simp

theorem sum_choose_mul_pow (N : ℕ) (p : ℚ) :
    ∑ j in Finset.range (N + 1),
      (Nat.choose N j : ℚ) * p ^ j * (1 - p) ^ (N - j) = 1 := by
  have hp : p + (1 - p) = 1 := by ring
  have h := add_pow p (1 - p) N
  rw [hp, one_pow] at h
  calc ∑ j in Finset.range (N + 1), (Nat.choose N j : ℚ) * p ^ j * (1 - p) ^ (N - j)
      = ∑ j in Finset.range (N + 1), p ^ j * (1 - p) ^ (N - j) * (Nat.choose N j : ℚ) :=
        Finset.sum_congr rfl (fun j _ => by ring)
    _ = 1 := h.symm

theorem mem_intRange_bounds {m i : ℤ} (hi : i ∈ intRange m) : 0 ≤ i ∧ i < m := by
  unfold intRange at hi
  simp only [List.mem_map, List.mem_range] at hi
  obtain ⟨j, hj, rfl⟩ := hi
  show 0 ≤ (j : ℤ) ∧ (j : ℤ) < m
  omega

theorem intRange_map_sum {α : Type} [AddCommMonoid α] (m : ℤ) (g : ℤ → α) :
    ((intRange m).map g).sum = ∑ j in Finset.range m.toNat, g (j : ℤ) := by
  unfold intRange
  rw [List.map_map]
  exact list_range_map_sum m.toNat (fun j => g (j : ℤ))

/-- The sum of the binomial pmf over `i = 0..n` is exactly 1, by the binomial
theorem applied to `(p + (1-p))^n`. -/
theorem binomial_sum (n : ℤ) (p : ℚ) (hn : 1 ≤ n) (hp0 : 0 ≤ p) (hp1 : p ≤ 1) :
    sumE (fun i => binomial n i p) (intRange (n + 1)) = .ok 1 := by
  have hval : ∀ i ∈ intRange (n + 1), binomial n i p =
      .ok ((Nat.choose n.toNat i.toNat : ℚ) * p ^ i.toNat * (1 - p) ^ (n - i).toNat) := by
    intro i hi
    obtain ⟨h0, h1⟩ := mem_intRange_bounds hi
    exact binomial_eval hn h0 (by omega) hp0 hp1
  rw [sumE_ok (fun i => binomial n i p)
    (fun i => (Nat.choose n.toNat i.toNat : ℚ) * p ^ i.toNat * (1 - p) ^ (n - i).toNat)
    (intRange (n + 1)) hval]
  congr 1
  rw [intRange_map_sum]
  have h1 : (n + 1).toNat = n.toNat + 1 := by omega
  rw [h1]
  have h2 : ∀ j ∈ Finset.range (n.toNat + 1),
      ((Nat.choose n.toNat ((j : ℤ)).toNat : ℚ) * p ^ ((j : ℤ)).toNat *
        (1 - p) ^ (n - (j : ℤ)).toNat) =
      (Nat.choose n.toNat j : ℚ) * p ^ j * (1 - p) ^ (n.toNat - j) := by
    intro j hj
    rw [Finset.mem_range] at hj
    have e1 : ((j : ℤ)).toNat = j := by omega
    have e2 : (n - (j : ℤ)).toNat = n.toNat - j := by omega
    rw [e1, e2]
  rw [Finset.sum_congr rfl h2]
  exact sum_choose_mul_pow n.toNat p

/-- Claim C4: for every integer `n ≥ 1` and every `p` in `[0,1]`, the sum of
`binomial n i p` over `i = 0..n` equals exactly 1, and
`binomial_cumulative n k p = 1.0` for every `k ≥ n` (the cdf clamps `k` to
`n`), in particular at `k = n`. -/
theorem binomial_total_mass :
    (∀ (n : ℤ) (p : ℚ), 1 ≤ n → 0 ≤ p → p ≤ 1 →
      sumE (fun i => binomial n i p) (intRange (n + 1)) = .ok 1) ∧
    (∀ (n k : ℤ) (p : ℚ), 1 ≤ n → 0 ≤ p → p ≤ 1 → n ≤ k →
      binomial_cumulative n k p = .ok 1) := by
  refine ⟨fun n p hn h0 h1 => binomial_sum n p hn h0 h1, ?_⟩
  intro n k p hn h0 h1 hk
  unfold binomial_cumulative
  rw [if_neg (by omega)]
  simp only [ge_iff_le, if_pos hk]
  exact binomial_sum n p hn h0 h1

/-- Witness for C4 at `n = 10`, `k = 12 ≥ n`, `p = 1/2`, and at `k = n`. -/
theorem binomial_total_mass_witness :
    binomial_cumulative 10 12 (1/2) = .ok 1 ∧
    binomial_cumulative 10 10 (1/2) = .ok 1 :=
  ⟨binomial_total_mass.2 10 12 (1/2) (by omega) (by norm_num) (by norm_num) (by omega),
   binomial_total_mass.2 10 10 (1/2) (by omega) (by norm_num) (by norm_num) (by omega)⟩

end ProbCalc
